import Mathlib

/-!
Verification of the mais_art_journal image-generation core.

This file shallowly embeds the Python modules
`core/utils/model_utils.py`, `core/utils/image_send_utils.py`,
`core/utils/recall_utils.py`, `core/utils/shared_constants.py` and
`core/api_clients/openai_chat_client.py`, and proves the specified
properties about them.  Python values flowing through the dynamically
typed configuration dictionaries are modelled by the inductive type
`PyVal`; Python dictionaries are association lists (`PyDict`) that keep
insertion order, as CPython dictionaries do.
-/

set_option maxRecDepth 10000

mutual

/-- Model of a dynamically typed Python value as it occurs in the
configuration dictionaries of the repository. -/
inductive PyVal where
  | vNone : PyVal
  | vBool : Bool → PyVal
  | vInt : Int → PyVal
  | vStr : String → PyVal
  | vList : PyList → PyVal
  | vDict : PyDict → PyVal
deriving DecidableEq

/-- Model of a Python list of `PyVal`s. -/
inductive PyList where
  | nil : PyList
  | cons : PyVal → PyList → PyList
deriving DecidableEq

/-- Model of a Python dict with string keys, keeping insertion order. -/
inductive PyDict where
  | dnil : PyDict
  | dcons : String → PyVal → PyDict → PyDict
deriving DecidableEq

end

/-- Lookup of a key in a dict, first occurrence wins (`d.get(k)` with no
default, returning `none` for a missing key). -/
def pyDictGet : PyDict → String → Option PyVal
  | .dnil, _ => none
  | .dcons k v rest, key => if k = key then some v else pyDictGet rest key

/-- Python `d.get(key, default)`. -/
def pyDictGetD (d : PyDict) (key : String) (dflt : PyVal) : PyVal :=
  (pyDictGet d key).getD dflt

/-- Python `d[key] = v`: replace the value at an existing key in place,
otherwise append the new key at the end (insertion order). -/
def pyDictSet : PyDict → String → PyVal → PyDict
  | .dnil, key, v => .dcons key v .dnil
  | .dcons k w rest, key, v =>
      if k = key then .dcons k v rest else .dcons k w (pyDictSet rest key v)

/-- Python truthiness of a value (`bool(v)`). -/
def pyTruthy : PyVal → Bool
  | .vNone => false
  | .vBool b => b
  | .vInt n => n ≠ 0
  | .vStr s => s ≠ ""
  | .vList .nil => false
  | .vList (.cons _ _) => true
  | .vDict .dnil => false
  | .vDict (.dcons _ _ _) => true

/-- Python `v == c` for an integer literal `c`: numeric cross-type
equality between `bool` and `int`, `False` for every other type. -/
def pyEqInt : PyVal → Int → Bool
  | .vInt n, c => n = c
  | .vBool b, c => (if b then (1 : Int) else 0) = c
  | _, _ => false

/-- Python `v == "s"` for a string literal: string comparison when `v`
is a string, `False` for every other type. -/
def pyEqStr : PyVal → String → Bool
  | .vStr t, s => t = s
  | _, _ => false

mutual

/-- Python `str(v)`.  Containers print their elements with `repr`;
string `repr` is modelled as plain single-quote wrapping (the embedded
code only ever stringifies scalar configuration values). -/
def pyStr : PyVal → String
  | .vNone => "None"
  | .vBool true => "True"
  | .vBool false => "False"
  | .vInt n => toString n
  | .vStr s => s
  | .vList l => "[" ++ pyReprList l ++ "]"
  | .vDict d => "\x7b" ++ pyReprDict d ++ "\x7d"

/-- Python `repr(v)` (strings get quoted, containers recurse). -/
def pyRepr : PyVal → String
  | .vNone => "None"
  | .vBool true => "True"
  | .vBool false => "False"
  | .vInt n => toString n
  | .vStr s => "\x27" ++ s ++ "\x27"
  | .vList l => "[" ++ pyReprList l ++ "]"
  | .vDict d => "\x7b" ++ pyReprDict d ++ "\x7d"

/-- Comma-joined `repr` of the elements of a list. -/
def pyReprList : PyList → String
  | .nil => ""
  | .cons v .nil => pyRepr v
  | .cons v (.cons w rest) => pyRepr v ++ ", " ++ pyReprList (.cons w rest)

/-- Comma-joined `repr` of the entries of a dict. -/
def pyReprDict : PyDict → String
  | .dnil => ""
  | .dcons k v .dnil => "\x27" ++ k ++ "\x27: " ++ pyRepr v
  | .dcons k v (.dcons k2 w rest) =>
      "\x27" ++ k ++ "\x27: " ++ pyRepr v ++ ", " ++ pyReprDict (.dcons k2 w rest)

end

/-- ASCII `str.lower()`; the statuses compared in the embedded code are
ASCII-only. -/
def pyLower (s : String) : String := s.map Char.toLower

/-! ## model_utils.py -/

/-- The fixed field list of `get_model_config` in `model_utils.py`
(lines 39–51), used for the field-by-field fallback assembly. -/
def MODEL_CONFIG_FIELDS : List String :=
  ["name", "base_url", "api_key", "format", "model",
   "fixed_size_enabled", "default_size", "seed",
   "guidance_scale", "num_inference_steps", "watermark",
   "custom_prompt_add", "negative_prompt_add", "artist",
   "support_img2img", "auto_recall_delay",
   "cfg", "sampler", "nocache", "noise_schedule",
   "img2img_model_index", "image_upload_url",
   "default_width", "default_height",
   "safety_settings"]

/-- The acceptance test shared by tiers 1 and 3 of `get_model_config`:
`isinstance(model_config, dict) and model_config.get("base_url")`,
returning the dict when it passes. -/
def dict_if_usable : PyVal → Option PyDict
  | .vDict d => if pyTruthy (pyDictGetD d "base_url" .vNone) then some d else none
  | _ => none

/-- Tier 2 of `get_model_config`: query `models.<model_id>.<field>` for
every field of the fixed list and collect the non-`None` results into a
fresh dict, in field order. -/
def assemble_fields (config_getter : String → PyVal) (model_id : String) : PyDict :=
  MODEL_CONFIG_FIELDS.foldl
    (fun acc field =>
      match config_getter ("models." ++ model_id ++ "." ++ field) with
      | .vNone => acc
      | v => pyDictSet acc field v)
    .dnil

/-- Embedding of `get_model_config` (`model_utils.py` lines 12–70).
The Python `config_getter(key, None)` collaborator is modelled as a
total function returning `vNone` for the default. -/
def get_model_config (config_getter : String → PyVal)
    (model_id : String) (default_model_id : String) : Option PyDict :=
  match dict_if_usable (config_getter ("models." ++ model_id)) with
  | some d => some d
  | none =>
    let assembled := assemble_fields config_getter model_id
    if pyTruthy (pyDictGetD assembled "base_url" .vNone) then some assembled
    else if model_id ≠ default_model_id then
      dict_if_usable (config_getter ("models." ++ default_model_id))
    else none

/-- Embedding of `merge_negative_prompt` (`model_utils.py` lines
73–89).  The `dict(model_config)` shallow copy is the value itself in
this pure model. -/
def merge_negative_prompt (model_config : PyDict) (extra_negative : String) : PyDict :=
  if extra_negative = "" then model_config
  else
    let existing := pyDictGetD model_config "negative_prompt_add" (.vStr "")
    if pyTruthy existing then
      pyDictSet model_config "negative_prompt_add"
        (.vStr (pyStr existing ++ ", " ++ extra_negative))
    else
      pyDictSet model_config "negative_prompt_add" (.vStr extra_negative)

/-- Embedding of `inject_llm_original_size` (`model_utils.py` lines
92–105). -/
def inject_llm_original_size (model_config : PyDict) (llm_original_size : String) : PyDict :=
  let api_format := pyDictGetD model_config "format" (.vStr "openai")
  if (pyEqStr api_format "gemini" || pyEqStr api_format "zai")
      && llm_original_size ≠ "" then
    pyDictSet model_config "_llm_original_size" (.vStr llm_original_size)
  else model_config

/-! Dictionary lemmas appear with the other theorems at the end of the
file. -/

/-! ## shared_constants.py and image_send_utils.py -/

/-- `BASE64_IMAGE_PREFIXES` from `shared_constants.py` line 5. -/
def BASE64_IMAGE_PREFIXES : List String := ["iVBORw", "/9j/", "UklGR", "R0lGOD"]

/-- Whether the character list starts with the given pattern. -/
def list_starts_with : List Char → List Char → Bool
  | _, [] => true
  | [], _ :: _ => false
  | c :: cs, p :: ps => c = p && list_starts_with cs ps

/-- Python `s.startswith(tuple)`: true when any of the prefixes matches. -/
def starts_with_any (s : String) (ps : List String) : Bool :=
  ps.any (fun p => list_starts_with s.data p.data)

/-- Outcome of one call of the synchronous `download_fn` collaborator:
a returned `(success, base64_or_error)` pair, or a raised exception. -/
inductive DownloadOutcome where
  | ret : Bool → String → DownloadOutcome
  | exn : String → DownloadOutcome
deriving DecidableEq

/-- Embedding of `resolve_image_data` (`image_send_utils.py` lines
16–47).  The second component of the result records the arguments of
every invocation of `download_fn`, so that the theorems can speak about
how often the download collaborator is called.  The `await
asyncio.to_thread` offloading is sequential in effect and is modelled
as a direct call. -/
def resolve_image_data (image_data : String)
    (download_fn : String → DownloadOutcome) : (Bool × String) × List String :=
  if starts_with_any image_data BASE64_IMAGE_PREFIXES then
    ((true, image_data), [])
  else
    match download_fn image_data with
    | .ret true encode_result => ((true, encode_result), [image_data])
    | .ret false encode_result =>
        ((false, "图片下载失败: " ++ encode_result), [image_data])
    | .exn _ => ((false, "图片下载失败"), [image_data])

/-! ## recall_utils.py -/

/-- Outcome of one call of the `send_command_fn` collaborator in
`_recall_task`: a returned Python value, or a raised exception. -/
inductive CmdOutcome where
  | ret : PyVal → CmdOutcome
  | exn : String → CmdOutcome
deriving DecidableEq

/-- `DELETE_COMMAND_CANDIDATES` from `recall_utils.py` lines 72–77, in
declaration order. -/
def DELETE_COMMAND_CANDIDATES : List String :=
  ["DELETE_MSG", "delete_msg", "RECALL_MSG", "recall_msg"]

/-- The success test applied to the result of one delete command
(`recall_utils.py` lines 87–99): a boolean `True`, or a dict whose
lowercased `status` is `ok`/`success` or whose `retcode` or `code`
equals `0`. -/
def cmd_result_success : PyVal → Bool
  | .vBool b => b
  | .vDict d =>
      let status := pyLower (pyStr (pyDictGetD d "status" (.vStr "")))
      (status = "ok" || status = "success")
        || pyEqInt (pyDictGetD d "retcode" .vNone) 0
        || pyEqInt (pyDictGetD d "code" .vNone) 0
  | _ => false

/-- Embedding of the candidate loop of `_recall_task`
(`recall_utils.py` lines 78–107): try each command in order; a raised
exception or an unsuccessful result moves on to the next candidate; the
first success stops the loop.  The result is the final
`recall_success` flag together with the list of commands actually sent,
in order. -/
def recall_attempt_loop (send_command_fn : String → CmdOutcome) :
    List String → Bool × List String
  | [] => (false, [])
  | cmd :: rest =>
    match send_command_fn cmd with
    | .exn _ =>
        let r := recall_attempt_loop send_command_fn rest
        (r.1, cmd :: r.2)
    | .ret v =>
        if cmd_result_success v then (true, [cmd])
        else
          let r := recall_attempt_loop send_command_fn rest
          (r.1, cmd :: r.2)

/-- Whether one candidate command succeeds under a given dispatcher (a
raised exception counts as failure, as in the `except` branch of the
loop). -/
def cmd_succeeds (send_command_fn : String → CmdOutcome) (cmd : String) : Bool :=
  match send_command_fn cmd with
  | .ret v => cmd_result_success v
  | .exn _ => false

/-- The attempted commands expected from a first-success-wins loop: all
candidates up to and including the first successful one, or all of them
when none succeeds. -/
def attempts_until_success (p : String → Bool) : List String → List String
  | [] => []
  | cmd :: rest => if p cmd then [cmd] else cmd :: attempts_until_success p rest

/-! ## openai_chat_client.py — HTTP outcome handling of `_make_request` -/

/-- Outcome of the HTTP transport in `_make_request`: a response with
status and body, or a raised transport-level exception (timeout,
connection reset, malformed response), modelled by `str(e)`. -/
inductive RequestOutcome where
  | response : Int → String → RequestOutcome
  | raised : String → RequestOutcome
deriving DecidableEq

/-- Embedding of the `try`/`except` response handling of
`_make_request` (`openai_chat_client.py` lines 141–176).  The
`json.loads` + `_extract_image_from_response` step on a 2xx body is
abstracted as the `extract2xx` collaborator; an `Except.error` from it
models an exception raised inside the `try` block, which the same
handler converts to a failure result. -/
def handle_request_outcome (extract2xx : String → Except String (Bool × String)) :
    RequestOutcome → Bool × String
  | .raised e => (false, "Chat API请求异常: " ++ e.take 100)
  | .response response_status response_body_str =>
      if 200 ≤ response_status ∧ response_status < 300 then
        match extract2xx response_body_str with
        | .ok r => r
        | .error e => (false, "Chat API请求异常: " ++ e.take 100)
      else
        (false, "Chat API请求失败(状态码 " ++ toString response_status ++ ")")

/-! ## openai_chat_client.py — `_extract_image_from_response`

The five extraction strategies are regular expressions applied with
`re.findall`, of which only the first match is used.  Each pattern is
compiled here into an explicit left-to-right scanning function whose
result is the leftmost match under Python's backtracking semantics;
the compilation of each pattern is justified case by case in the
comments. -/

/-- Python `\s` for `str` patterns: ASCII whitespace including vertical
tab and form feed, the C1 separators, and the Unicode space
characters. -/
def pyIsSpace (c : Char) : Bool :=
  c = ' ' || c = '\t' || c = '\n' || c = '\r' ||
  c = Char.ofNat 11 || c = Char.ofNat 12 ||
  c = Char.ofNat 28 || c = Char.ofNat 29 || c = Char.ofNat 30 || c = Char.ofNat 31 ||
  c = Char.ofNat 133 || c = Char.ofNat 160 || c = Char.ofNat 5760 ||
  (8192 ≤ c.toNat && c.toNat ≤ 8202) ||
  c = Char.ofNat 8232 || c = Char.ofNat 8233 || c = Char.ofNat 8239 ||
  c = Char.ofNat 8287 || c = Char.ofNat 12288

/-- The base64 alphabet class `[A-Za-z0-9+/]`. -/
def isB64Char (c : Char) : Bool := c.isAlpha || c.isDigit || c = '+' || c = '/'

/-- The base64 class with padding, `[A-Za-z0-9+/=]`. -/
def isB64PadChar (c : Char) : Bool := isB64Char c || c = '='

/-- The URL character class `[^\s<>"\x27]` of strategies 4 and 5
(character codes 34 and 60–62 written numerically). -/
def url_char (c : Char) : Bool :=
  !pyIsSpace c && c ≠ '<' && c ≠ '>' && c ≠ Char.ofNat 34 && c ≠ Char.ofNat 39

/-- Python `s.startswith(tuple_of_prefixes)` on a character list. -/
def starts_with_any_chars (cs : List Char) (ps : List String) : Bool :=
  ps.any (fun p => list_starts_with cs p.data)

/-- Leftmost-match driver shared by all strategies: try the
position matcher at every start position from the left and return the
first success, as `re.findall(...)[0]` does for these patterns. -/
def scanFirst (f : List Char → Option (List Char)) : List Char → Option (List Char)
  | [] => f []
  | c :: cs =>
    match f (c :: cs) with
    | some r => some r
    | none => scanFirst f cs

/-- The `(https?://[^\s\)]+)\)` tail of the markdown pattern: a literal
scheme, then a greedy nonempty run of `[^\s)]` which, being maximal and
unable to contain `)`, must be followed immediately by the closing
`)`. -/
def md_url_part (cs : List Char) : Option (List Char) :=
  match cs with
  | 'h' :: 't' :: 't' :: 'p' :: rest =>
    let (scheme_s, rest2) :=
      match rest with
      | 's' :: r => (['s'], r)
      | _ => (([] : List Char), rest)
    match rest2 with
    | ':' :: '/' :: '/' :: r =>
      let run := r.takeWhile (fun c => !pyIsSpace c && c ≠ ')')
      let after := r.dropWhile (fun c => !pyIsSpace c && c ≠ ')')
      if run = [] then none
      else
        match after with
        | ')' :: _ =>
            some ('h' :: 't' :: 't' :: 'p' :: scheme_s ++ ':' :: '/' :: '/' :: run)
        | _ => none
    | _ => none
  | _ => none

/-- The `.*?\]\((https?://[^\s\)]+)\)` part after a literal `![`: the
lazy dot (which cannot cross a newline) advances to each `](` in turn
and tries the URL tail there, taking the first position where the whole
tail matches. -/
def md_after_bang : List Char → Option (List Char)
  | [] => none
  | c :: cs =>
    if c = '\n' then none
    else
      match c, cs with
      | ']', '(' :: url_rest =>
        (match md_url_part url_rest with
         | some cap => some cap
         | none => md_after_bang cs)
      | _, _ => md_after_bang cs

/-- Strategy 1 position matcher: `!\[.*?\]\((https?://[^\s\)]+)\)`. -/
def md_at : List Char → Option (List Char)
  | '!' :: '[' :: rest => md_after_bang rest
  | _ => none

/-- Strategy 1 of `_extract_image_from_response` (lines 203–209):
first markdown image link, returning the captured URL. -/
def strat_markdown : List Char → Option (List Char) := scanFirst md_at

/-- Strategy 2 position matcher:
`data:image/[a-zA-Z]+;base64,([A-Za-z0-9+/=]+)`.  The greedy `[a-zA-Z]+`
run is maximal and must be followed by the literal `;base64,`; the
capture is the maximal nonempty `[A-Za-z0-9+/=]` run. -/
def data_uri_at : List Char → Option (List Char)
  | 'd' :: 'a' :: 't' :: 'a' :: ':' :: 'i' :: 'm' :: 'a' :: 'g' :: 'e' :: '/' :: rest =>
    let alphas := rest.takeWhile Char.isAlpha
    let r1 := rest.dropWhile Char.isAlpha
    if alphas = [] then none
    else
      match r1 with
      | ';' :: 'b' :: 'a' :: 's' :: 'e' :: '6' :: '4' :: ',' :: r2 =>
        let cap := r2.takeWhile isB64PadChar
        if cap = [] then none else some cap
      | _ => none
  | _ => none

/-- Strategy 2 of `_extract_image_from_response` (lines 211–217):
first data URI, returning only the base64 payload. -/
def strat_data_uri : List Char → Option (List Char) := scanFirst data_uri_at

/-- The `={0,2}` padding after a maximal base64 run, under the
trailing lookahead `(?![A-Za-z0-9+/])`: with `j` equal signs following
the run, the greedy pad takes `min(j,2)` of them, backing off by one
when the character right after the taken pads is again a base64
character (so that the lookahead holds at an `=` instead). -/
def b64_pad (rest : List Char) : List Char :=
  let j := (rest.takeWhile (fun c => c = '=')).length
  if j ≥ 3 then ['=', '=']
  else if j = 0 then []
  else
    match (rest.dropWhile (fun c => c = '=')).head? with
    | some c => if isB64Char c then List.replicate (j - 1) '=' else List.replicate j '='
    | none => List.replicate j '='

/-- All matches of
`(?<![A-Za-z0-9+/])([A-Za-z0-9+/]{200,}={0,2})(?![A-Za-z0-9+/])` in
order: the lookbehind and the greedy `{200,}` make every match consist
of one maximal base64 run of length at least 200 plus its admissible
padding.  The accumulator carries the current run reversed. -/
def b64_runs_go : List Char → List Char → List (List Char)
  | [], acc => if acc.length ≥ 200 then [acc.reverse] else []
  | c :: cs, acc =>
    if isB64Char c then b64_runs_go cs (c :: acc)
    else
      (if acc.length ≥ 200 then [acc.reverse ++ b64_pad (c :: cs)] else [])
        ++ b64_runs_go cs []

/-- `re.findall` of the base64 heuristic pattern over the content. -/
def b64_runs (content : List Char) : List (List Char) := b64_runs_go content []

/-- Python `max(matches, key=len)`: the first element of maximal
length. -/
def maxByLen : List (List Char) → List Char
  | [] => []
  | x :: xs =>
    let m := maxByLen xs
    if m.length > x.length then m else x

/-- Strategy 3 of `_extract_image_from_response` (lines 219–228): the
longest base64 match, accepted only if it starts with a known format
signature or is longer than 1000 characters.  The signature tuple is
the literal of line 226. -/
def strat_b64 (content : List Char) : Option (List Char) :=
  match b64_runs content with
  | [] => none
  | m :: ms =>
    let longest := maxByLen (m :: ms)
    if starts_with_any_chars longest ["/9j/", "iVBORw", "UklGR", "R0lGOD"]
        || longest.length > 1000 then
      some longest
    else none

/-- The image extension alternation `(?:png|jpg|jpeg|gif|webp|bmp)` of
strategy 4, in source order. -/
def IMAGE_EXTS : List String := ["png", "jpg", "jpeg", "gif", "webp", "bmp"]

/-- Case-insensitive literal match (pattern given lowercase), returning
the matched original characters and the remainder. -/
def ci_strip : List Char → List Char → Option (List Char × List Char)
  | [], ts => some ([], ts)
  | _ :: _, [] => none
  | p :: ps, t :: ts =>
    if t.toLower = p then
      match ci_strip ps ts with
      | some (orig, rest) => some (t :: orig, rest)
      | none => none
    else none

/-- The optional query group `(?:\?[^\s<>"\x27]*)?`: greedy, present
exactly when a `?` follows. -/
def query_part : List Char → List Char
  | '?' :: t => '?' :: t.takeWhile url_char
  | _ => []

/-- Try the extension alternatives in order at the position after the
dot; on the first that matches (case-insensitively), append the
optional query part. -/
def ext_match_go : List (List Char) → List Char → Option (List Char)
  | [], _ => none
  | e :: es, after =>
    match ci_strip e after with
    | some (orig, rest) => some (orig ++ query_part rest)
    | none => ext_match_go es after

/-- Extension-plus-query matcher for strategy 4. -/
def ext_match (after : List Char) : Option (List Char) :=
  ext_match_go (IMAGE_EXTS.map String.data) after

/-- Backtracking split of the greedy `[^\s<>"\x27]+` run of strategy 4:
try the prefix before the dot from longest to shortest (the first
argument of each round has length `k+1`), as the greedy engine does. -/
def url_ext_split (r : List Char) : Nat → Option (List Char)
  | 0 => none
  | k + 1 =>
    match
      (match r.drop (k + 1) with
       | '.' :: after =>
         (match ext_match after with
          | some extq => some (r.take (k + 1) ++ '.' :: extq)
          | none => none)
       | _ => none)
    with
    | some b => some b
    | none => url_ext_split r k

/-- Strategy 4 position matcher (pattern of line 231, compiled with
`re.IGNORECASE`): a case-insensitive scheme, then the greedy URL body
split at the last dot that carries a recognized image extension.  All
characters the `\.ext(?:\?…)?` tail can match lie in the URL class, so
the whole match stays inside the maximal URL-class run. -/
def url_ext_at (cs : List Char) : Option (List Char) :=
  match ci_strip ['h', 't', 't', 'p'] cs with
  | some (http_orig, rest) =>
    let (scheme_s, rest2) :=
      match rest with
      | c :: r => if c.toLower = 's' then ([c], r) else (([] : List Char), rest)
      | [] => (([] : List Char), rest)
    (match rest2 with
     | ':' :: '/' :: '/' :: r =>
       let run := r.takeWhile url_char
       (match url_ext_split run run.length with
        | some body => some (http_orig ++ scheme_s ++ ':' :: '/' :: '/' :: body)
        | none => none)
     | _ => none)
  | none => none

/-- Strategy 4 of `_extract_image_from_response` (lines 230–236):
first extension-qualified URL. -/
def strat_url_ext : List Char → Option (List Char) := scanFirst url_ext_at

/-- Strategy 5 position matcher: `(https?://[^\s<>"\x27]+)`,
case-sensitive. -/
def any_url_at (cs : List Char) : Option (List Char) :=
  match cs with
  | 'h' :: 't' :: 't' :: 'p' :: rest =>
    let (scheme_s, rest2) :=
      match rest with
      | 's' :: r => (['s'], r)
      | _ => (([] : List Char), rest)
    (match rest2 with
     | ':' :: '/' :: '/' :: r =>
       let run := r.takeWhile url_char
       if run = [] then none
       else some ('h' :: 't' :: 't' :: 'p' :: scheme_s ++ ':' :: '/' :: '/' :: run)
     | _ => none)
  | _ => none

/-- Strategy 5 of `_extract_image_from_response` (lines 238–245):
first URL of any shape. -/
def strat_any_url : List Char → Option (List Char) := scanFirst any_url_at

/-- Embedding of the content-processing part of
`_extract_image_from_response` (`openai_chat_client.py` lines
197–248): the empty-content guard followed by the five strategies in
fixed order, stopping at the first match. -/
def extract_image_from_content (content : List Char) : Bool × List Char :=
  match content with
  | [] => (false, "Chat API响应中无内容".data)
  | _ =>
    match strat_markdown content with
    | some image_url => (true, image_url)
    | none =>
      match strat_data_uri content with
      | some b64_data => (true, b64_data)
      | none =>
        match strat_b64 content with
        | some longest => (true, longest)
        | none =>
          match strat_url_ext content with
          | some image_url => (true, image_url)
          | none =>
            match strat_any_url content with
            | some image_url => (true, image_url)
            | none => (false, "无法从 Chat API 响应中提取图片数据".data)

/-! ## openai_chat_client.py — request payload construction -/

/-- Embedding of the payload construction of `_make_request`
(`openai_chat_client.py` lines 39–90).  `input_image_base64` defaults
to the falsy `""`; `strength` is a float in the source and is
abstracted here by its printed form (`none` when falsy), which is only
interpolated into the user text; `prepare_image_data_uri` stands for
the inherited `self._prepare_image_data_uri` helper.  A non-string
`custom_prompt_add` makes `prompt + custom_prompt_add` raise a
`TypeError` in Python, modelled by the `none` result. -/
def build_payload (prompt : String) (model_config : PyDict) (size : String)
    (strength : Option String) (input_image_base64 : String)
    (prepare_image_data_uri : String → String) : Option PyDict :=
  let model := pyDictGetD model_config "model" (.vStr "")
  match pyDictGetD model_config "custom_prompt_add" (.vStr "") with
  | .vStr custom_prompt_add =>
    let full_prompt := prompt ++ custom_prompt_add
    let negative_prompt_add := pyDictGetD model_config "negative_prompt_add" (.vStr "")
    let full_prompt :=
      if pyTruthy negative_prompt_add then
        full_prompt ++ "\n\nNegative prompt (avoid these): " ++ pyStr negative_prompt_add
      else full_prompt
    let system_content :=
      "You are an image generation assistant. Generate an image based on the user\x27s description. Target image size: "
        ++ size ++ "."
    let system_msg : PyVal :=
      .vDict (.dcons "role" (.vStr "system") (.dcons "content" (.vStr system_content) .dnil))
    let user_msg : PyVal :=
      if input_image_base64 ≠ "" then
        let image_data_uri := prepare_image_data_uri input_image_base64
        let strength_text :=
          match strength with
          | some s => " (modification strength: " ++ s ++ ")"
          | none => ""
        .vDict (.dcons "role" (.vStr "user") (.dcons "content" (.vList
          (.cons (.vDict (.dcons "type" (.vStr "image_url")
            (.dcons "image_url" (.vDict (.dcons "url" (.vStr image_data_uri) .dnil)) .dnil)))
          (.cons (.vDict (.dcons "type" (.vStr "text")
            (.dcons "text" (.vStr ("Please modify this image based on the following description"
              ++ strength_text ++ ": " ++ full_prompt)) .dnil)))
          .nil))) .dnil))
      else
        .vDict (.dcons "role" (.vStr "user")
          (.dcons "content" (.vStr ("Please generate an image: " ++ full_prompt)) .dnil))
    let payload_dict : PyDict :=
      .dcons "model" model
        (.dcons "messages" (.vList (.cons system_msg (.cons user_msg .nil))) .dnil)
    let seed := pyDictGetD model_config "seed" (.vInt (-1))
    let payload_dict :=
      if pyTruthy seed && !pyEqInt seed (-1) then pyDictSet payload_dict "seed" seed
      else payload_dict
    let payload_dict :=
      if size ≠ "" then pyDictSet payload_dict "size" (.vStr size) else payload_dict
    some payload_dict
  | _ => none

/-- Concrete response content of the worked example of claim C1. -/
def sample_markdown_content : List Char :=
  ("Here: ![x](https://ex.com/a.png) also https://ex.com/b.jpg").data

/-! ## Shared lemmas -/

theorem pyDictGet_set_self : ∀ (d : PyDict) (k : String) (v : PyVal),
    pyDictGet (pyDictSet d k v) k = some v
  | .dnil, k, v => by simp [pyDictSet, pyDictGet]
  | .dcons k' w rest, k, v => by
    by_cases h : k' = k
    · subst h; simp [pyDictSet, pyDictGet]
    · simp [pyDictSet, pyDictGet, h, pyDictGet_set_self rest k v]

theorem pyDictGet_set_other : ∀ (d : PyDict) (k k' : String) (v : PyVal),
    k' ≠ k → pyDictGet (pyDictSet d k v) k' = pyDictGet d k'
  | .dnil, k, k', v, h => by
    simp [pyDictSet, pyDictGet, Ne.symm h]
  | .dcons k2 w rest, k, k', v, h => by
    by_cases h2 : k2 = k
    · subst h2
      simp [pyDictSet, pyDictGet, Ne.symm h]
    · simp [pyDictSet, pyDictGet, h2, pyDictGet_set_other rest k k' v h]

theorem dict_if_usable_sound (v : PyVal) (d : PyDict)
    (h : dict_if_usable v = some d) :
    pyTruthy (pyDictGetD d "base_url" .vNone) = true := by
  cases v with
  | vDict d' =>
    simp only [dict_if_usable] at h
    split at h
    · cases h; assumption
    · cases h
  | vNone => cases h
  | vBool b => cases h
  | vInt n => cases h
  | vStr s => cases h
  | vList l => cases h

/-! ## Claim C3 -/

/-- C3: `get_model_config` resolves in three tiers with first success
winning: (1) the nested mapping at `models.<modelId>` when it is a dict
with truthy `base_url`; (2) otherwise the field-by-field assembled
mapping when that has truthy `base_url`; (3) otherwise, when
`modelId ≠ defaultModelId`, the nested mapping at
`models.<defaultModelId>` when that is a dict with truthy `base_url`;
and `none` (no exception) when all tiers fail. -/
theorem get_model_config_three_tiers
    (config_getter : String → PyVal) (model_id default_model_id : String) :
    (∀ d : PyDict, config_getter ("models." ++ model_id) = .vDict d →
        pyTruthy (pyDictGetD d "base_url" .vNone) = true →
        get_model_config config_getter model_id default_model_id = some d)
    ∧ (dict_if_usable (config_getter ("models." ++ model_id)) = none →
        pyTruthy (pyDictGetD (assemble_fields config_getter model_id) "base_url" .vNone)
          = true →
        get_model_config config_getter model_id default_model_id
          = some (assemble_fields config_getter model_id))
    ∧ (dict_if_usable (config_getter ("models." ++ model_id)) = none →
        pyTruthy (pyDictGetD (assemble_fields config_getter model_id) "base_url" .vNone)
          = false →
        model_id ≠ default_model_id →
        ∀ d : PyDict, config_getter ("models." ++ default_model_id) = .vDict d →
          pyTruthy (pyDictGetD d "base_url" .vNone) = true →
          get_model_config config_getter model_id default_model_id = some d)
    ∧ (dict_if_usable (config_getter ("models." ++ model_id)) = none →
        pyTruthy (pyDictGetD (assemble_fields config_getter model_id) "base_url" .vNone)
          = false →
        (model_id = default_model_id ∨
          dict_if_usable (config_getter ("models." ++ default_model_id)) = none) →
        get_model_config config_getter model_id default_model_id = none) := by
  refine ⟨?_, ?_, ?_, ?_⟩
  · intro d hd htr
    simp [get_model_config, hd, dict_if_usable, htr]
  · intro h1 h2
    simp [get_model_config, h1, h2]
  · intro h1 h2 hne d hd htr
    simp only [get_model_config, h1]
    simp [h2, hne, hd, dict_if_usable, htr]
  · intro h1 h2 h3
    rcases h3 with heq | h3
    · subst heq
      simp only [get_model_config, h1]
      simp [h2]
    · by_cases hne : model_id = default_model_id
      · subst hne
        simp only [get_model_config, h1]
        simp [h2]
      · simp only [get_model_config, h1]
        simp [h2, hne, h3]

/-- Concrete config getter for the C3 witness: the queried model id is
entirely absent, the default model has a usable nested config. -/
def sample_config_getter : String → PyVal := fun key =>
  if key = "models.model1" then .vDict (.dcons "base_url" (.vStr "http://x") .dnil)
  else .vNone

theorem get_model_config_three_tiers_witness :
    get_model_config sample_config_getter "m2" "model1"
      = some (.dcons "base_url" (.vStr "http://x") .dnil) :=
  (get_model_config_three_tiers sample_config_getter "m2" "model1").2.2.1
    (by decide) (by decide) (by decide) _ (by decide) (by decide)

/-! ## Claim C10 -/

/-- C10: whenever `get_model_config` returns a config, that config has
a truthy `base_url` — none of the three tiers can hand the caller a
config without one. -/
theorem get_model_config_usable_invariant
    (config_getter : String → PyVal) (model_id default_model_id : String)
    (d : PyDict)
    (h : get_model_config config_getter model_id default_model_id = some d) :
    pyTruthy (pyDictGetD d "base_url" .vNone) = true := by
  unfold get_model_config at h
  split at h
  · next heq => cases h; exact dict_if_usable_sound _ _ heq
  · next heq =>
    simp only [] at h
    split at h
    · next hcond => cases h; exact hcond
    · split at h
      · exact dict_if_usable_sound _ _ h
      · cases h

theorem get_model_config_usable_invariant_witness :
    pyTruthy (pyDictGetD (.dcons "base_url" (.vStr "http://x") .dnil)
      "base_url" .vNone) = true :=
  get_model_config_usable_invariant sample_config_getter "model1" "model1" _
    (by decide)

/-! ## Claim C6 -/

/-- C6 counterexample: on a config with empty (here: absent)
`negative_prompt_add` and non-empty `extra`, `merge_negative_prompt`
does not pass the config through unchanged — it sets
`negative_prompt_add` to `extra`. -/
theorem merge_negative_prompt_cex :
    merge_negative_prompt .dnil "x"
        = .dcons "negative_prompt_add" (.vStr "x") .dnil
      ∧ merge_negative_prompt .dnil "x" ≠ .dnil := by
  constructor
  · decide
  · decide

/-- C6 (amended): `merge_negative_prompt cfg extra` returns `cfg`
itself when `extra` is empty; when `extra` is non-empty it returns a
copy whose `negative_prompt_add` is `"existing, extra"` if the existing
value is truthy and `extra` otherwise, with every other key
unchanged. -/
theorem merge_negative_prompt_amended (cfg : PyDict) (extra : String) :
    (merge_negative_prompt cfg "" = cfg)
    ∧ (extra ≠ "" →
        pyTruthy (pyDictGetD cfg "negative_prompt_add" (.vStr "")) = true →
        pyDictGet (merge_negative_prompt cfg extra) "negative_prompt_add"
            = some (.vStr (pyStr (pyDictGetD cfg "negative_prompt_add" (.vStr ""))
                ++ ", " ++ extra))
          ∧ ∀ k, k ≠ "negative_prompt_add" →
              pyDictGet (merge_negative_prompt cfg extra) k = pyDictGet cfg k)
    ∧ (extra ≠ "" →
        pyTruthy (pyDictGetD cfg "negative_prompt_add" (.vStr "")) = false →
        pyDictGet (merge_negative_prompt cfg extra) "negative_prompt_add"
            = some (.vStr extra)
          ∧ ∀ k, k ≠ "negative_prompt_add" →
              pyDictGet (merge_negative_prompt cfg extra) k = pyDictGet cfg k) := by
  refine ⟨by simp [merge_negative_prompt], ?_, ?_⟩
  · intro hex htr
    simp only [merge_negative_prompt, hex, if_neg (by simpa using hex), htr, if_true]
    exact ⟨pyDictGet_set_self _ _ _, fun k hk => pyDictGet_set_other _ _ _ _ hk⟩
  · intro hex htr
    simp only [merge_negative_prompt, hex, if_neg (by simpa using hex), htr,
      Bool.false_eq_true, if_false]
    exact ⟨pyDictGet_set_self _ _ _, fun k hk => pyDictGet_set_other _ _ _ _ hk⟩

theorem merge_negative_prompt_amended_witness :
    pyDictGet (merge_negative_prompt
        (.dcons "negative_prompt_add" (.vStr "a") .dnil) "b") "negative_prompt_add"
      = some (.vStr "a, b") :=
  ((merge_negative_prompt_amended
      (.dcons "negative_prompt_add" (.vStr "a") .dnil) "b").2.1
    (by decide) (by decide)).1

/-! ## Claim C7 -/

/-- C7: `inject_llm_original_size` is the identity for a config whose
`format` (defaulting to `"openai"`) is `"openai"`, and for `format` in
`(gemini, zai)` with non-empty size it returns a copy in which only
`_llm_original_size` is set, every other key reading the same as in the
input. -/
theorem inject_llm_original_size_spec (cfg : PyDict) (s : String) :
    (pyDictGetD cfg "format" (.vStr "openai") = .vStr "openai" →
        inject_llm_original_size cfg s = cfg)
    ∧ ((pyDictGetD cfg "format" (.vStr "openai") = .vStr "gemini"
          ∨ pyDictGetD cfg "format" (.vStr "openai") = .vStr "zai") → s ≠ "" →
        pyDictGet (inject_llm_original_size cfg s) "_llm_original_size"
            = some (.vStr s)
          ∧ ∀ k, k ≠ "_llm_original_size" →
              pyDictGet (inject_llm_original_size cfg s) k = pyDictGet cfg k) := by
  constructor
  · intro hf
    simp [inject_llm_original_size, hf, pyEqStr]
  · intro hf hs
    have hcond : (pyEqStr (pyDictGetD cfg "format" (.vStr "openai")) "gemini"
        || pyEqStr (pyDictGetD cfg "format" (.vStr "openai")) "zai") = true := by
      rcases hf with h | h <;> simp [h, pyEqStr]
    simp only [inject_llm_original_size, hcond, Bool.true_and,
      decide_eq_true (show s ≠ "" from hs), if_true]
    exact ⟨pyDictGet_set_self _ _ _, fun k hk => pyDictGet_set_other _ _ _ _ hk⟩

theorem inject_llm_original_size_spec_witness :
    pyDictGet (inject_llm_original_size
        (.dcons "format" (.vStr "gemini") .dnil) "512x512") "_llm_original_size"
      = some (.vStr "512x512") :=
  ((inject_llm_original_size_spec (.dcons "format" (.vStr "gemini") .dnil)
      "512x512").2 (by decide) (by decide)).1

/-! ## Claim C4 -/

/-- C4: `resolve_image_data` returns a prefixed string unchanged
without invoking the download function; for a non-prefixed string it
invokes the download function exactly once on that string and returns
its result unchanged on success, and converts a raised exception into a
failure result instead of propagating it. -/
theorem resolve_image_data_spec (s : String) (f : String → DownloadOutcome) :
    (starts_with_any s BASE64_IMAGE_PREFIXES = true →
        resolve_image_data s f = ((true, s), []))
    ∧ (starts_with_any s BASE64_IMAGE_PREFIXES = false →
        (resolve_image_data s f).2 = [s]
        ∧ (∀ r : String, f s = .ret true r →
            resolve_image_data s f = ((true, r), [s]))
        ∧ (∀ e : String, f s = .exn e →
            resolve_image_data s f = ((false, "图片下载失败"), [s]))) := by
  constructor
  · intro h
    simp [resolve_image_data, h]
  · intro h
    refine ⟨?_, ?_, ?_⟩
    · simp only [resolve_image_data, h, Bool.false_eq_true, if_false]
      cases hf : f s with
      | ret b r => cases b <;> simp
      | exn e => simp
    · intro r hf
      simp [resolve_image_data, h, hf]
    · intro e hf
      simp [resolve_image_data, h, hf]

theorem resolve_image_data_spec_witness :
    resolve_image_data "iVBORw0KGgo" (fun u => .exn ("no network for " ++ u))
      = ((true, "iVBORw0KGgo"), []) :=
  (resolve_image_data_spec "iVBORw0KGgo"
      (fun u => .exn ("no network for " ++ u))).1 (by decide)

/-! ## Claim C5 -/

/-- C5: in `_make_request`, a non-2xx response status yields a failure
result whose message carries the status code and does not depend on the
response body; any exception raised inside the `try` block — a
transport fault before a response, or a failure while decoding the 2xx
body — is converted into a failure result carrying the exception text
truncated to 100 characters; no outcome raises into the caller. -/
theorem make_request_error_handling
    (extract2xx : String → Except String (Bool × String)) :
    (∀ (st : Int) (body : String), ¬(200 ≤ st ∧ st < 300) →
        handle_request_outcome extract2xx (.response st body)
          = (false, "Chat API请求失败(状态码 " ++ toString st ++ ")"))
    ∧ (∀ e : String,
        handle_request_outcome extract2xx (.raised e)
          = (false, "Chat API请求异常: " ++ e.take 100))
    ∧ (∀ (st : Int) (body e : String), 200 ≤ st → st < 300 →
        extract2xx body = .error e →
        handle_request_outcome extract2xx (.response st body)
          = (false, "Chat API请求异常: " ++ e.take 100)) := by
  refine ⟨?_, ?_, ?_⟩
  · intro st body h
    simp [handle_request_outcome, h]
  · intro e
    simp [handle_request_outcome]
  · intro st body e h1 h2 hx
    simp [handle_request_outcome, h1, h2, hx]

theorem make_request_error_handling_witness :
    handle_request_outcome (fun _ => .ok (true, "data"))
        (.response 404 "secret body")
      = (false, "Chat API请求失败(状态码 " ++ toString (404 : Int) ++ ")") :=
  (make_request_error_handling (fun _ => .ok (true, "data"))).1 404 "secret body"
    (by decide)

/-! ## Claim C9 -/

theorem recall_attempt_loop_eq (send_command_fn : String → CmdOutcome) :
    ∀ cmds : List String,
      recall_attempt_loop send_command_fn cmds
        = (cmds.any (cmd_succeeds send_command_fn),
           attempts_until_success (cmd_succeeds send_command_fn) cmds) := by
  intro cmds
  induction cmds with
  | nil => rfl
  | cons c cs ih =>
    simp only [recall_attempt_loop, attempts_until_success, List.any_cons]
    cases hs : send_command_fn c with
    | exn e =>
      have hc : cmd_succeeds send_command_fn c = false := by
        simp [cmd_succeeds, hs]
      simp [hs, hc, ih]
    | ret v =>
      by_cases hv : cmd_result_success v
      · have hc : cmd_succeeds send_command_fn c = true := by
          simp [cmd_succeeds, hs, hv]
        simp [hs, hv, hc]
      · have hc : cmd_succeeds send_command_fn c = false := by
          simp [cmd_succeeds, hs, hv]
        simp [hs, hv, hc, ih]

/-- C9: the recall task tries the delete-command candidates in the
fixed declared order `DELETE_MSG, delete_msg, RECALL_MSG, recall_msg`;
the attempted commands are exactly the candidates up to and including
the first success (a boolean `True`, or a dict with `ok`/`success`
status or zero `retcode`/`code`), so no candidate after a success is
ever invoked; and when every candidate fails or raises, the loop
returns normally with all candidates attempted and no success. -/
theorem recall_candidates_first_success (send_command_fn : String → CmdOutcome) :
    DELETE_COMMAND_CANDIDATES = ["DELETE_MSG", "delete_msg", "RECALL_MSG", "recall_msg"]
    ∧ recall_attempt_loop send_command_fn DELETE_COMMAND_CANDIDATES
        = (DELETE_COMMAND_CANDIDATES.any (cmd_succeeds send_command_fn),
           attempts_until_success (cmd_succeeds send_command_fn)
             DELETE_COMMAND_CANDIDATES)
    ∧ ((∀ c ∈ DELETE_COMMAND_CANDIDATES, cmd_succeeds send_command_fn c = false) →
        recall_attempt_loop send_command_fn DELETE_COMMAND_CANDIDATES
          = (false, DELETE_COMMAND_CANDIDATES)) := by
  refine ⟨rfl, recall_attempt_loop_eq send_command_fn DELETE_COMMAND_CANDIDATES, ?_⟩
  intro hall
  rw [recall_attempt_loop_eq send_command_fn DELETE_COMMAND_CANDIDATES]
  have h1 : DELETE_COMMAND_CANDIDATES.any (cmd_succeeds send_command_fn) = false := by
    simp only [List.any_eq_false]
    intro c hc
    simp [hall c hc]
  have h2 : attempts_until_success (cmd_succeeds send_command_fn)
      DELETE_COMMAND_CANDIDATES = DELETE_COMMAND_CANDIDATES := by
    simp [DELETE_COMMAND_CANDIDATES, attempts_until_success,
      hall "DELETE_MSG" (by simp [DELETE_COMMAND_CANDIDATES]),
      hall "delete_msg" (by simp [DELETE_COMMAND_CANDIDATES]),
      hall "RECALL_MSG" (by simp [DELETE_COMMAND_CANDIDATES]),
      hall "recall_msg" (by simp [DELETE_COMMAND_CANDIDATES])]
  rw [h1, h2]

theorem recall_candidates_first_success_witness :
    recall_attempt_loop (fun _ => CmdOutcome.exn "network down")
        DELETE_COMMAND_CANDIDATES
      = (false, DELETE_COMMAND_CANDIDATES) :=
  (recall_candidates_first_success (fun _ => CmdOutcome.exn "network down")).2.2
    (by decide)

/-! ## Claim C1 -/

/-- C1: the extraction pipeline applies its strategies in fixed
priority order with the first match winning and no merging: whenever
the markdown strategy matches — in particular when an
extension-qualified URL is also present later in the content — the
result is the markdown capture; and on the worked example the result is
`(true, "https://ex.com/a.png")`. -/
theorem extract_strategy_priority :
    (∀ (content u v : List Char),
        strat_markdown content = some u → strat_url_ext content = some v →
        extract_image_from_content content = (true, u))
    ∧ extract_image_from_content sample_markdown_content
        = (true, ("https://ex.com/a.png").data) := by
  constructor
  · intro content u v h1 _
    cases content with
    | nil => simp [strat_markdown, scanFirst, md_at] at h1
    | cons c cs => simp [extract_image_from_content, h1]
  · decide

theorem extract_strategy_priority_witness :
    extract_image_from_content sample_markdown_content
      = (true, ("https://ex.com/a.png").data) :=
  extract_strategy_priority.1 sample_markdown_content
    (("https://ex.com/a.png").data) (("https://ex.com/a.png").data)
    (by decide) (by decide)

/-! ## Claim C2 — supporting lemmas -/

theorem maxByLen_mem : ∀ l : List (List Char), l ≠ [] → maxByLen l ∈ l := by
  intro l
  induction l with
  | nil => intro h; exact absurd rfl h
  | cons x xs ih =>
    intro _
    simp only [maxByLen]
    by_cases hx : (maxByLen xs).length > x.length
    · simp only [hx, if_true]
      cases xs with
      | nil => simp [maxByLen] at hx
      | cons y ys => exact List.mem_cons_of_mem x (ih (by simp))
    · simp [hx]

theorem maxByLen_eq_of_strict : ∀ (l : List (List Char)) (r : List Char),
    r ∈ l → (∀ s ∈ l, s ≠ r → s.length < r.length) → maxByLen l = r := by
  intro l
  induction l with
  | nil => intro r hr; simp at hr
  | cons x xs ih =>
    intro r hr hstrict
    simp only [maxByLen]
    rcases List.mem_cons.mp hr with hx | hxs
    · subst hx
      by_cases hgt : (maxByLen xs).length > r.length
      · exfalso
        cases xs with
        | nil => simp [maxByLen] at hgt
        | cons y ys =>
          have hm := maxByLen_mem (y :: ys) (by simp)
          by_cases heq : maxByLen (y :: ys) = r
          · rw [heq] at hgt; omega
          · have := hstrict _ (List.mem_cons_of_mem _ hm) heq
            omega
      · simp [hgt]
    · have hmx : maxByLen xs = r :=
        ih r hxs (fun s hs hne => hstrict s (List.mem_cons_of_mem _ hs) hne)
      rw [hmx]
      by_cases hxr : x = r
      · subst hxr
        simp
      · have hlt := hstrict x (List.mem_cons_self _ _) hxr
        simp only [if_pos hlt]

theorem b64_runs_nil : b64_runs [] = [] := by
  simp [b64_runs, b64_runs_go]

/-! ## Claim C2 -/

/-- C2: when neither the markdown nor the data-URI strategy matches
(and no URL is present either), and the base64 heuristic finds a
1500-character match that is strictly longer than every other match,
extraction accepts it — 1500 exceeds the 1000-character acceptance
threshold — and returns `(true, that run)`. -/
theorem b64_heuristic_longest_run (content r : List Char)
    (h1 : strat_markdown content = none)
    (h2 : strat_data_uri content = none)
    (h4 : strat_url_ext content = none)
    (h5 : strat_any_url content = none)
    (hmem : r ∈ b64_runs content)
    (hlen : r.length = 1500)
    (hmax : ∀ s ∈ b64_runs content, s ≠ r → s.length < r.length) :
    extract_image_from_content content = (true, r) := by
  have hne : b64_runs content ≠ [] := by
    intro h
    rw [h] at hmem
    simp at hmem
  have hcne : content ≠ [] := by
    intro h
    subst h
    exact hne b64_runs_nil
  have hmx : maxByLen (b64_runs content) = r :=
    maxByLen_eq_of_strict (b64_runs content) r hmem hmax
  have h3 : strat_b64 content = some r := by
    unfold strat_b64
    cases hruns : b64_runs content with
    | nil => exact absurd hruns hne
    | cons m ms =>
      rw [hruns] at hmx
      simp only [hmx]
      have : r.length > 1000 := by omega
      simp [this]
  cases content with
  | nil => exact absurd rfl hcne
  | cons c cs => simp [extract_image_from_content, h1, h2, h3]

/-! C2 witness lemmas: the 1500-character run of `A`s. -/

theorem scanFirst_replicate_A_none (f : List Char → Option (List Char))
    (hf : ∀ k : Nat, f (List.replicate k 'A') = none) :
    ∀ n : Nat, scanFirst f (List.replicate n 'A') = none := by
  intro n
  induction n with
  | zero => simpa [scanFirst] using hf 0
  | succ n ih =>
    have hfn := hf (n + 1)
    rw [List.replicate_succ] at hfn ⊢
    simp [scanFirst, hfn, ih]

theorem md_at_replicate_A_none : ∀ k : Nat, md_at (List.replicate k 'A') = none
  | 0 => rfl
  | k + 1 => by rw [List.replicate_succ]; rfl

theorem data_uri_at_replicate_A_none :
    ∀ k : Nat, data_uri_at (List.replicate k 'A') = none
  | 0 => rfl
  | k + 1 => by rw [List.replicate_succ]; rfl

theorem url_ext_at_replicate_A_none :
    ∀ k : Nat, url_ext_at (List.replicate k 'A') = none
  | 0 => rfl
  | k + 1 => by rw [List.replicate_succ]; rfl

theorem any_url_at_replicate_A_none :
    ∀ k : Nat, any_url_at (List.replicate k 'A') = none
  | 0 => rfl
  | k + 1 => by rw [List.replicate_succ]; rfl

theorem b64_runs_go_replicate_A :
    ∀ (n : Nat) (acc : List Char),
      b64_runs_go (List.replicate n 'A') acc
        = if acc.length + n ≥ 200 then [acc.reverse ++ List.replicate n 'A'] else [] := by
  intro n
  induction n with
  | zero => intro acc; simp [b64_runs_go]
  | succ n ih =>
    intro acc
    rw [List.replicate_succ]
    simp only [b64_runs_go, show isB64Char 'A' = true from rfl, if_true]
    rw [ih ('A' :: acc)]
    have hlen : ('A' :: acc).length + n = acc.length + (n + 1) := by
      simp
      omega
    rw [hlen]
    by_cases h : acc.length + (n + 1) ≥ 200
    · simp only [if_pos h, List.reverse_cons, List.append_assoc,
        List.singleton_append, List.replicate_succ]
    · simp [h]

theorem b64_runs_replicate_A_1500 :
    b64_runs (List.replicate 1500 'A') = [List.replicate 1500 'A'] := by
  unfold b64_runs
  rw [b64_runs_go_replicate_A 1500 []]
  norm_num

theorem b64_heuristic_longest_run_witness :
    extract_image_from_content (List.replicate 1500 'A')
      = (true, List.replicate 1500 'A') := by
  refine b64_heuristic_longest_run (List.replicate 1500 'A')
      (List.replicate 1500 'A') ?_ ?_ ?_ ?_ ?_ ?_ ?_
  · exact scanFirst_replicate_A_none md_at md_at_replicate_A_none 1500
  · exact scanFirst_replicate_A_none data_uri_at data_uri_at_replicate_A_none 1500
  · exact scanFirst_replicate_A_none url_ext_at url_ext_at_replicate_A_none 1500
  · exact scanFirst_replicate_A_none any_url_at any_url_at_replicate_A_none 1500
  · rw [b64_runs_replicate_A_1500]
    simp
  · simp
  · rw [b64_runs_replicate_A_1500]
    intro s hs hne
    simp at hs
    exact absurd hs hne

/-! ## Claim C8 -/

theorem base_payload_get_seed (v mv : PyVal) :
    pyDictGet (.dcons "model" v (.dcons "messages" mv .dnil)) "seed" = none := rfl

theorem base_payload_get_size (v mv : PyVal) :
    pyDictGet (.dcons "model" v (.dcons "messages" mv .dnil)) "size" = none := rfl

/-- C8 counterexample: with `seed = 0` the claim would require the
`seed` field to be present (`0 != -1`), but `if seed and seed != -1`
treats the falsy `0` as unset and the built payload has no `seed`
key. -/
theorem build_payload_seed_zero_cex :
    (build_payload "p" (.dcons "seed" (.vInt 0) .dnil) "" none ""
        (fun s => s)).map (fun p => (pyDictGet p "seed").isSome)
      = some false
    ∧ pyEqInt (.vInt 0) (-1) = false := by
  constructor
  · decide
  · decide

/-- C8 (amended): the built payload includes the `seed` field exactly
when the config's seed is truthy and differs from `-1` (so e.g.
`seed = 0` or `seed = None` is omitted although it differs from `-1`),
and includes the `size` field exactly when the size string is
non-empty. -/
theorem payload_optional_fields_amended
    (prompt : String) (cfg : PyDict) (size : String) (strength : Option String)
    (input_image_base64 : String) (prep : String → String) (p : PyDict)
    (h : build_payload prompt cfg size strength input_image_base64 prep = some p) :
    (pyDictGet p "seed").isSome
        = (pyTruthy (pyDictGetD cfg "seed" (.vInt (-1)))
            && !pyEqInt (pyDictGetD cfg "seed" (.vInt (-1))) (-1))
    ∧ ((pyDictGet p "size").isSome = true ↔ size ≠ "") := by
  unfold build_payload at h
  split at h
  case _ =>
    injection h with h
    subst h
    by_cases hseed : (pyTruthy (pyDictGetD cfg "seed" (.vInt (-1)))
        && !pyEqInt (pyDictGetD cfg "seed" (.vInt (-1))) (-1)) = true
    · by_cases hsize : size = ""
      · subst hsize
        simp only [hseed, if_true, ne_eq, not_true_eq_false, if_false]
        constructor
        · rw [pyDictGet_set_self]
          simp [hseed]
        · rw [pyDictGet_set_other _ _ _ _ (by decide), base_payload_get_size]
          simp
      · simp only [hseed, if_true, ne_eq, hsize, not_false_eq_true, if_true]
        constructor
        · rw [pyDictGet_set_other _ _ _ _ (by decide), pyDictGet_set_self]
          simp [hseed]
        · rw [pyDictGet_set_self]
          simp [hsize]
    · by_cases hsize : size = ""
      · subst hsize
        simp only [hseed, if_false, ne_eq, not_true_eq_false, if_false,
          Bool.false_eq_true]
        constructor
        · rw [base_payload_get_seed]
          simp [Bool.eq_false_iff.mpr hseed]
        · rw [base_payload_get_size]
          simp
      · simp only [hseed, if_false, ne_eq, hsize, not_false_eq_true, if_true,
          Bool.false_eq_true]
        constructor
        · rw [pyDictGet_set_other _ _ _ _ (by decide), base_payload_get_seed]
          simp [Bool.eq_false_iff.mpr hseed]
        · rw [pyDictGet_set_self]
          simp [hsize]
  case _ => cases h

theorem payload_optional_fields_amended_witness :
    (pyDictGet ((build_payload "p" (.dcons "seed" (.vInt 7) .dnil) "1x1" none ""
        (fun s => s)).getD .dnil) "seed").isSome = true := by
  have h : build_payload "p" (.dcons "seed" (.vInt 7) .dnil) "1x1" none ""
        (fun s => s)
      = some ((build_payload "p" (.dcons "seed" (.vInt 7) .dnil) "1x1" none ""
        (fun s => s)).getD .dnil) := by decide
  rw [(payload_optional_fields_amended "p" (.dcons "seed" (.vInt 7) .dnil) "1x1"
    none "" (fun s => s) _ h).1]
  decide
